import Mathlib

/-!
Verification of the text-analysis engine in `stuff/practice.py` (CodeVault).

The Python source is shallowly embedded: each analysis strategy becomes a
pure Lean function over `String`, the singleton `TextAnalyzer`'s mutable
state becomes an explicit `EngineState` threaded through `analyzeStep`, and
exceptions become `Except`.  Character-level primitives model Python's
`str` operations restricted to the character repertoire this repository
actually uses (ASCII plus the Spanish accented letters appearing in the
sentiment/stop-word vocabularies).
-/

namespace CodeVault

/-- Python whitespace as used by `str.strip()` / `str.isspace()`,
restricted to the ASCII whitespace characters (space, tab, newline,
carriage return, vertical tab, form feed). -/
def isPySpace (c : Char) : Bool :=
  c = ' ' || c = '\t' || c = '\n' || c = '\r' || c = Char.ofNat 11 || c = Char.ofNat 12

/-- Uppercase/lowercase pairs of the non-ASCII letters used by the repo. -/
def accentPairs : List (Char × Char) :=
  [('Á', 'á'), ('É', 'é'), ('Í', 'í'), ('Ó', 'ó'), ('Ú', 'ú'), ('Ü', 'ü'), ('Ñ', 'ñ')]

/-- Python `str.lower` on a single character (ASCII plus accented letters). -/
def pyLower (c : Char) : Char :=
  match accentPairs.find? (fun p => p.1 == c) with
  | some p => p.2
  | none => c.toLower

/-- Python's regex `\w` (word character), restricted to the repertoire in
use: ASCII alphanumerics, underscore, and the Spanish accented letters. -/
def isWordChar (c : Char) : Bool :=
  c.isAlphanum || c = '_' || accentPairs.any (fun p => p.1 == c || p.2 == c)

/-- Python `text.lower()`. -/
def pyLowerStr (s : String) : String := ⟨s.data.map pyLower⟩

/-- Worker for `runsOf`: `cur` is the (reversed) run currently being read.
Structural recursion so that the kernel can evaluate it on literals. -/
def runsOfGo (p : Char → Bool) : List Char → List Char → List (List Char)
  | cur, [] => if cur = [] then [] else [cur.reverse]
  | cur, c :: cs =>
    if p c then runsOfGo p (c :: cur) cs
    else if cur = [] then runsOfGo p [] cs
    else cur.reverse :: runsOfGo p [] cs

/-- The maximal runs of characters satisfying `p`, in order.  This models
`re.findall(r'\b\w+\b', s)` (with `p := isWordChar`), `re.split(r'[.!?]+', s)`
up to empty pieces, and the vowel groups of `_count_syllables`. -/
def runsOf (p : Char → Bool) (l : List Char) : List (List Char) := runsOfGo p [] l

/-- Models `re.findall(r'\b\w+\b', text)`: the maximal word-character runs. -/
def findallWords (s : String) : List String :=
  (runsOf isWordChar s.data).map (fun r => ⟨r⟩)

/-- Models `re.findall(r'\b\w+\b', text.lower())`, the tokenization used by
`FrequencyAnalysis` and `SentimentAnalysis`. -/
def wordsLower (s : String) : List String := findallWords (pyLowerStr s)

/-- Models `word_generator`: lowercased tokens, dropping single-character digit
tokens (`if len(word_text) > 1 or not word_text.isdigit()`). -/
def wordGenerator (s : String) : List String :=
  (wordsLower s).filter (fun w => decide (1 < w.length) || !(w.data.all Char.isDigit))

/-- Models `not text or not text.strip()`: the emptiness test of `analyze_text`.
True exactly when the text is empty or all-whitespace. -/
def pyIsBlank (text : String) : Bool := text.data.all isPySpace

/-! ### SentimentAnalysis -/

/-- The set `SentimentAnalysis.POSITIVE_WORDS`. -/
def POSITIVE_WORDS : List String :=
  ["bueno", "excelente", "genial", "increíble", "feliz", "amor", "perfecto",
   "fantástico", "maravilloso", "espectacular", "estupendo", "brillante",
   "positivo", "alegre", "exitoso", "éxito", "victoria", "ganar"]

/-- The set `SentimentAnalysis.NEGATIVE_WORDS`. -/
def NEGATIVE_WORDS : List String :=
  ["malo", "terrible", "horrible", "triste", "odio", "error", "problema",
   "pésimo", "deficiente", "fracaso", "negativo", "desastre", "fallo",
   "inútil", "difícil", "complicado", "preocupante", "crisis"]

/-- The set `SentimentAnalysis.ENTHUSIASM_WORDS`. -/
def ENTHUSIASM_WORDS : List String :=
  ["increíble", "asombroso", "impresionante", "wow", "guau", "genial",
   "extraordinario", "fascinante", "emocionante"]

/-- The set `SentimentAnalysis.NEUTRAL_WORDS`. -/
def NEUTRAL_WORDS : List String :=
  ["normal", "regular", "estándar", "común", "típico", "habitual"]

/-- The dictionary returned by `SentimentAnalysis.analyze`. -/
structure SentimentResult where
  sentiment_score : ℚ
  positive_words : ℕ
  negative_words : ℕ
  enthusiasm_level : ℕ
  neutrality : ℕ
  emotion : String
deriving DecidableEq

/-- Round-half-to-even to an integer, as Python's `round` does. -/
def roundHalfEven (q : ℚ) : ℤ :=
  let f := Rat.floor q
  if q - f < 1/2 then f
  else if (1/2 : ℚ) < q - f then f + 1
  else if f % 2 = 0 then f else f + 1

/-- Python `round(q, 2)` on the exact rational value of the score. -/
def pyRound2 (q : ℚ) : ℚ := (roundHalfEven (q * 100) : ℚ) / 100

/-- Models `SentimentAnalysis.analyze`: intersects the set of unique lowercased
tokens with the four fixed vocabularies and scores the weighted counts. -/
def sentimentAnalyze (text : String) : SentimentResult :=
  let words := (wordsLower text).toFinset
  if words = ∅ then
    { sentiment_score := 0, positive_words := 0, negative_words := 0,
      enthusiasm_level := 0, neutrality := 0, emotion := "neutral" }
  else
    let positive := (words ∩ POSITIVE_WORDS.toFinset).card
    let negative := (words ∩ NEGATIVE_WORDS.toFinset).card
    let enthusiasm := (words ∩ ENTHUSIASM_WORDS.toFinset).card
    let neutral := (words ∩ NEUTRAL_WORDS.toFinset).card
    let score : ℚ :=
      (((positive : ℚ) * (3/2) + (enthusiasm : ℚ) * 2) - (negative : ℚ) * (3/2))
        / (max words.card 1 : ℕ) * 100
    let emotion :=
      if 1 < enthusiasm then "entusiasta"
      else if negative < positive then "positivo"
      else if positive < negative then "negativo"
      else "neutral"
    { sentiment_score := pyRound2 score, positive_words := positive,
      negative_words := negative, enthusiasm_level := enthusiasm,
      neutrality := neutral, emotion := emotion }

/-! ### ReadabilityAnalysis, StructuralAnalysis, StatisticalAnalysis -/

/-- The enum `ComplexityLevel`. -/
inductive ComplexityLevel where
  | SIMPLE
  | MEDIUM
  | COMPLEX
  | ADVANCED
deriving DecidableEq

/-- The vowels of `_count_syllables` (`'aeiouáéíóúü'`). -/
def isVowelChar (c : Char) : Bool :=
  ['a', 'e', 'i', 'o', 'u', 'á', 'é', 'í', 'ó', 'ú', 'ü'].contains c

/-- The character-by-character loop of `_count_syllables`: `prev` is
`previous_was_vowel`, and the count is incremented on each non-vowel to
vowel transition. -/
def sylGo (prev : Bool) : List Char → ℕ
  | [] => 0
  | c :: cs =>
    (if isVowelChar c && !prev then 1 else 0) + sylGo (isVowelChar c) cs

/-- Models `ReadabilityAnalysis._count_syllables`: transition count over the
lowercased word, with a minimum of one syllable. -/
def countSyllables (word : String) : ℕ :=
  max 1 (sylGo false (word.data.map pyLower))

/-- The sentence delimiters of `re.split(r'[.!?]+', text)`. -/
def isSentenceDelim (c : Char) : Bool := c = '.' || c = '!' || c = '?'

/-- The non-blank pieces of `re.split(r'[.!?]+', text)`: the maximal runs
of non-delimiter characters that contain a non-whitespace character
(empty or all-whitespace pieces are dropped by the `s.strip()` filters). -/
def nonBlankSentences (text : String) : List String :=
  ((runsOf (fun c => !isSentenceDelim c) text.data).map (fun r => (⟨r⟩ : String))).filter
    (fun s => s.data.any (fun c => !isPySpace c))

/-- Models `StructuralAnalysis.analyze`'s `sentence_count`. -/
def sentenceCount (text : String) : ℕ := (nonBlankSentences text).length

/-- The part of the dictionary returned by `ReadabilityAnalysis.analyze`
that `analyze_text` consumes (`avg_syllables_per_word` and
`avg_words_per_sentence` are returned but never read by the engine). -/
structure ReadabilityResult where
  readability_score : ℚ
  complexity_level : ComplexityLevel
deriving DecidableEq

/-- Models `ReadabilityAnalysis.analyze`: simplified Flesch Reading Ease clamped
to [0, 100], with the complexity level derived from the clamped score. -/
def readabilityAnalyze (text : String) : ReadabilityResult :=
  let words := findallWords text
  let sentences := nonBlankSentences text
  if sentences = [] ∨ words = [] then
    { readability_score := 0, complexity_level := .SIMPLE }
  else
    let syllables : ℚ := ((words.map countSyllables).sum : ℕ)
    let avgWordsPerSentence : ℚ := (words.length : ℚ) / (sentences.length : ℚ)
    let avgSyllablesPerWord : ℚ := syllables / (words.length : ℚ)
    let raw : ℚ := 206835/1000 - (203/200) * avgWordsPerSentence
      - (423/5) * avgSyllablesPerWord
    let score := max 0 (min 100 raw)
    let complexity :=
      if 80 ≤ score then ComplexityLevel.SIMPLE
      else if 60 ≤ score then ComplexityLevel.MEDIUM
      else if 40 ≤ score then ComplexityLevel.COMPLEX
      else ComplexityLevel.ADVANCED
    { readability_score := score, complexity_level := complexity }

/-- The `lexical_diversity` value `analyze_text` obtains from
`StatisticalAnalysis.analyze`: computed over the raw case-sensitive
`re.findall(r'\b\w+\b', text)` tokens; when that token list is empty the
strategy returns `{}` and `analyze_text`'s `.get` defaults to `0.0`.
(The strategy's median/mode/stdev fields are never read by the engine and
are not modeled.) -/
def statLexicalDiversity (text : String) : ℚ :=
  let words := findallWords text
  if words = [] then 0
  else ((words.toFinset.card : ℚ) / (words.length : ℚ))

/-! ### FrequencyAnalysis / Counter.most_common -/

/-- First occurrences of each token, in order (`Counter` insertion order). -/
def dedupSeen (seen : List String) : List String → List String
  | [] => []
  | w :: ws => if seen.contains w then dedupSeen seen ws
               else w :: dedupSeen (w :: seen) ws

/-- Models `Counter(tokens)` as an ordered association list. -/
def wordCounts (tokens : List String) : List (String × ℕ) :=
  (dedupSeen [] tokens).map (fun w => (w, tokens.count w))

/-- Insert an entry into a count-descending list, after all entries with a
count at least as large (the stability of `sorted(..., reverse=True)`). -/
def insertByCount (x : String × ℕ) : List (String × ℕ) → List (String × ℕ)
  | [] => [x]
  | y :: ys => if y.2 < x.2 then x :: y :: ys else y :: insertByCount x ys

/-- Stable sort by count, descending. -/
def sortByCountDesc (l : List (String × ℕ)) : List (String × ℕ) :=
  l.foldl (fun acc x => insertByCount x acc) []

/-- Models `Counter(tokens).most_common(n)`: the `n` highest counts, ties in
first-insertion order. -/
def mostCommon (tokens : List String) (n : ℕ) : List (String × ℕ) :=
  (sortByCountDesc (wordCounts tokens)).take n

/-! ### TextStatistics and the full analysis -/

/-- The dataclass `TextStatistics`.  The `text_hash` field (the first 8 hex
characters of the MD5 digest, a presentation-only field no engine
operation ever reads back) is not modeled. -/
structure TextStatistics where
  total_words : ℕ
  total_chars : ℕ
  unique_words : ℕ
  avg_word_length : ℚ
  most_common : List (String × ℕ)
  sentiment_score : ℚ
  readability_score : ℚ
  complexity_level : ComplexityLevel
  lexical_diversity : ℚ
  sentence_count : ℕ
deriving DecidableEq

/-- The body of `TextAnalyzer.analyze_text` after the emptiness check:
runs every strategy on the text and aggregates the `TextStatistics`. -/
def computeStats (text : String) : TextStatistics :=
  let words := wordGenerator text
  let sentiment := sentimentAnalyze text
  let readability := readabilityAnalyze text
  { total_words := words.length
    total_chars := text.length
    unique_words := words.toFinset.card
    avg_word_length :=
      if words = [] then 0
      else ((words.map String.length).sum : ℚ) / (words.length : ℚ)
    most_common := mostCommon (wordsLower text) 10
    sentiment_score := sentiment.sentiment_score
    readability_score := readability.readability_score
    complexity_level := readability.complexity_level
    lexical_diversity := statLexicalDiversity text
    sentence_count := sentenceCount text }

/-! ### The engine state: cache, history, counters, observer events -/

/-- Models `self._texts_analyzed.append(text[:50] + '...' if len(text) > 50 else text)`:
by Python operator precedence the stored entry for a long text is the
50-character prefix followed by `'...'`. -/
def truncEntry (text : String) : String :=
  if 50 < text.length then ⟨text.data.take 50 ++ ['.', '.', '.']⟩ else text

/-- The mutable state of the `TextAnalyzer` singleton: the
`cache_results` cache of `analyze_text` (in insertion order), the
`_texts_analyzed` history, `analysis_count`, and the stream of observer
notifications fired through `Observable.notify`. -/
structure EngineState where
  cache : List (String × TextStatistics)
  history : List String
  count : ℕ
  events : List String
deriving DecidableEq

/-- The freshly constructed analyzer. -/
def initState : EngineState := ⟨[], [], 0, []⟩

/-- Dictionary lookup in the cache. -/
def cacheLookup (cache : List (String × TextStatistics)) (t : String) :
    Option TextStatistics :=
  (cache.find? (fun p => p.1 == t)).map Prod.snd

/-- Capacity `cache_results(max_size=50)` of `analyze_text`. -/
def maxCacheSize : ℕ := 50

/-- One call of the decorated `analyze_text` on state `s`: an exact-key
cache hit returns the cached value with no side effects; a miss on blank
text raises `ValueError` before any side effect; otherwise the analysis
runs (notifying observers, appending the truncated history entry,
incrementing the counter) and the wrapper evicts the oldest cache entry
if the cache is at capacity before inserting the new one. -/
def analyzeStep (s : EngineState) (t : String) :
    Except Unit TextStatistics × EngineState :=
  match cacheLookup s.cache t with
  | some v => (.ok v, s)
  | none =>
    if pyIsBlank t then (.error (), s)
    else
      let st := computeStats t
      let cache1 := if maxCacheSize ≤ s.cache.length then s.cache.drop 1 else s.cache
      (.ok st,
        { cache := cache1 ++ [(t, st)]
          history := s.history ++ [truncEntry t]
          count := s.count + 1
          events := s.events ++ ["analysis_started", "analysis_completed"] })

/-- The engine operations a caller can run. -/
inductive EngineOp where
  | analyze (t : String)
  | clearCache
  | resetStats
  | batch (ts : List String)

/-- State effect of each operation: `clear_cache` empties the cache only;
`reset_statistics` clears history and counter and then the cache;
`batch_analyze` folds `analyze_text` over the texts. -/
def applyOp (s : EngineState) : EngineOp → EngineState
  | .analyze t => (analyzeStep s t).2
  | .clearCache => { s with cache := [] }
  | .resetStats => { s with history := [], count := 0, cache := [] }
  | .batch ts => ts.foldl (fun s' t => (analyzeStep s' t).2) s

/-- Run a sequence of operations from the fresh analyzer. -/
def runOps (ops : List EngineOp) : EngineState :=
  ops.foldl applyOp initState

/-! ### The generic decorators `cache_results` and `retry` -/

/-- One call through a `cache_results(max_size)`-decorated pure function:
hit returns the cached value; miss executes `f`, evicts the
oldest-inserted entry when at capacity (`cache_order.pop(0)`), and
appends the new entry. -/
def cacheCall {κ ν : Type} [DecidableEq κ] (f : κ → ν) (maxSize : ℕ)
    (cache : List (κ × ν)) (k : κ) : ν × List (κ × ν) :=
  match cache.find? (fun p => decide (p.1 = k)) with
  | some p => (p.2, cache)
  | none =>
    let v := f k
    let cache1 := if maxSize ≤ cache.length then cache.drop 1 else cache
    (v, cache1 ++ [(k, v)])

/-- The `for attempt in range(max_attempts)` loop of `retry`, with
`remaining = max_attempts - attempt` attempts left; `f n` is the outcome
of the wrapped call on (0-based) attempt `n`.  Returns the delivered
outcome (`none` when `max_attempts = 0` and the loop body never runs,
matching Python's implicit `None`) together with the number of times the
wrapped function was invoked. -/
def retryGo {ε α : Type} (f : ℕ → Except ε α) :
    ℕ → ℕ → Option (Except ε α) × ℕ
  | _, 0 => (none, 0)
  | attempt, r + 1 =>
    match f attempt with
    | .ok a => (some (.ok a), 1)
    | .error e =>
      if r = 0 then (some (.error e), 1)
      else
        let p := retryGo f (attempt + 1) r
        (p.1, p.2 + 1)

/-- A `retry(max_attempts)`-wrapped call. -/
def retryRun {ε α : Type} (f : ℕ → Except ε α) (maxAttempts : ℕ) :
    Option (Except ε α) × ℕ :=
  retryGo f 0 maxAttempts

/-! ### Text comparison -/

/-- Models `TextAnalyzer._calculate_similarity`: Jaccard similarity of the
`word_generator` token sets, `0.0` when either set is empty. -/
def calculateSimilarity (t1 t2 : String) : ℚ :=
  let words1 := (wordGenerator t1).toFinset
  let words2 := (wordGenerator t2).toFinset
  if words1 = ∅ ∨ words2 = ∅ then 0
  else
    let inter := (words1 ∩ words2).card
    let union := (words1 ∪ words2).card
    if 0 < union then (inter : ℚ) / (union : ℚ) else 0

/-- The dictionary returned by `TextAnalyzer.compare_texts`. -/
structure CompareResult where
  similarity_score : ℚ
  word_diff : ℤ
  sentiment_diff : ℚ
  readability_diff : ℚ
deriving DecidableEq

/-- Models `TextAnalyzer.compare_texts`: analyzes both texts (an exception from
either propagates, leaving the state as the failed call left it) and
reports the similarity and the statistic differences. -/
def compareTexts (s : EngineState) (t1 t2 : String) :
    Except Unit CompareResult × EngineState :=
  match analyzeStep s t1 with
  | (.error e, s1) => (.error e, s1)
  | (.ok st1, s1) =>
    match analyzeStep s1 t2 with
    | (.error e, s2) => (.error e, s2)
    | (.ok st2, s2) =>
      (.ok { similarity_score := calculateSimilarity t1 t2
             word_diff := (st1.total_words : ℤ) - (st2.total_words : ℤ)
             sentiment_diff := st1.sentiment_score - st2.sentiment_score
             readability_diff := st1.readability_score - st2.readability_score },
       s2)

/-! ## Helper lemmas -/

/-- A fold preserves any invariant its step preserves. -/
theorem foldl_invariant {α β : Type} (P : α → Prop) (f : α → β → α)
    (hstep : ∀ a b, P a → P (f a b)) :
    ∀ (l : List β) (a : α), P a → P (l.foldl f a) := by
  intro l
  induction l with
  | nil => intro a ha; simpa using ha
  | cons b bs ih => intro a ha; simpa using ih (f a b) (hstep a b ha)

/-- Bound for `cacheCall`: a call never grows the cache past a positive
capacity. -/
theorem cacheCall_length_le {κ ν : Type} [DecidableEq κ] (f : κ → ν)
    (C : ℕ) (hC : 1 ≤ C) (cache : List (κ × ν)) (k : κ)
    (h : cache.length ≤ C) : (cacheCall f C cache k).2.length ≤ C := by
  unfold cacheCall
  cases hfind : cache.find? (fun p => decide (p.1 = k)) with
  | some p => simpa using h
  | none =>
    simp only
    split
    · rename_i hcap
      have h1 : cache.length = C := le_antisymm h hcap
      simp [List.length_drop, h1, Nat.sub_add_cancel hC]
    · rename_i hcap
      have h1 : cache.length < C := lt_of_not_le hcap
      simpa using h1

/-- Claim C4: for the bounded cache wrapper at capacity `C` (cache
`e :: rest` holding `C` distinct keys), a call on a new distinct key `k`
evicts exactly the earliest-inserted entry `e` before storing the new
one: the call returns `f k` with cache `rest ++ [(k, f k)]`, the cache
still holds `C` entries, the evicted key's next lookup is a fresh miss
that re-executes `f`, every other cached key remains cached, and no call
ever grows a cache within capacity past `C`. -/
theorem C4_fifo_eviction {κ ν : Type} [DecidableEq κ] (f : κ → ν) (C : ℕ)
    (e : κ × ν) (rest : List (κ × ν)) (k : κ)
    (hlen : (e :: rest).length = C)
    (hnodup : ((e :: rest).map Prod.fst).Nodup)
    (hmiss : ∀ p ∈ e :: rest, p.1 ≠ k) :
    cacheCall f C (e :: rest) k = (f k, rest ++ [(k, f k)]) ∧
    (rest ++ [(k, f k)]).length = C ∧
    (rest ++ [(k, f k)]).find? (fun p => decide (p.1 = e.1)) = none ∧
    (∀ p ∈ rest, p ∈ rest ++ [(k, f k)]) ∧
    (cacheCall f C (rest ++ [(k, f k)]) e.1).1 = f e.1 ∧
    (∀ (cache : List (κ × ν)) (k' : κ), cache.length ≤ C →
      (cacheCall f C cache k').2.length ≤ C) := by
  have hfind : (e :: rest).find? (fun p => decide (p.1 = k)) = none := by
    rw [List.find?_eq_none]
    intro p hp
    simpa using hmiss p hp
  have hcap : C ≤ (e :: rest).length := le_of_eq hlen.symm
  have hcall : cacheCall f C (e :: rest) k = (f k, rest ++ [(k, f k)]) := by
    have hcap' : C ≤ rest.length + 1 := by simpa using hcap
    unfold cacheCall
    rw [hfind]
    simp [hcap']
  have hheadfresh : (rest ++ [(k, f k)]).find? (fun p => decide (p.1 = e.1)) = none := by
    rw [List.find?_eq_none]
    intro p hp
    simp only [List.mem_append, List.mem_singleton] at hp
    rcases hp with hp | hp
    · have he1 : e.1 ∉ rest.map Prod.fst := by
        have := hnodup
        simp only [List.map_cons, List.nodup_cons] at this
        exact this.1
      intro hcontra
      exact he1 (by
        simp only [List.mem_map]
        exact ⟨p, hp, by simpa using hcontra.symm⟩)
    · subst hp
      intro hcontra
      simp only [decide_eq_true_eq] at hcontra
      exact hmiss e (List.mem_cons_self e rest) hcontra.symm
  refine ⟨hcall, ?_, hheadfresh, ?_, ?_, ?_⟩
  · simp only [List.length_append, List.length_singleton]
    simpa using hlen
  · intro p hp
    exact List.mem_append_left _ hp
  · unfold cacheCall
    rw [hheadfresh]
  · intro cache k' hle
    exact cacheCall_length_le f C (hlen ▸ Nat.succ_le_succ (Nat.zero_le _)) cache k' hle

/-- Witness for C4 at capacity 2 with keys 1, 2 and new key 3. -/
theorem C4_witness :
    cacheCall (fun n => n + 100) 2 [(1, 101), (2, 102)] 3 = (103, [(2, 102), (3, 103)]) ∧
    ([(2, 102), (3, 103)] : List (ℕ × ℕ)).length = 2 ∧
    ([(2, 102), (3, 103)] : List (ℕ × ℕ)).find? (fun p => decide (p.1 = 1)) = none ∧
    (∀ p ∈ [(2, 102)], p ∈ [(2, 102), (3, 103)]) ∧
    (cacheCall (fun n => n + 100) 2 [(2, 102), (3, 103)] 1).1 = 101 ∧
    (∀ (cache : List (ℕ × ℕ)) (k' : ℕ), cache.length ≤ 2 →
      (cacheCall (fun n => n + 100) 2 cache k').2.length ≤ 2) :=
  C4_fifo_eviction (fun n => n + 100) 2 (1, 101) [(2, 102)] 3
    (by decide) (by decide) (by decide)

/-- Claim C5: with `maxAttempts = 3`, a wrapped operation failing on the
first two invocations and succeeding on the third returns the third
invocation's success value (after 3 invocations); an operation failing on
all 3 attempts re-raises the final failure unmodified; an operation
succeeding on the first attempt is invoked exactly once. -/
theorem C5_retry_semantics {ε α : Type} (f g h : ℕ → Except ε α) (a b : α)
    (e0 e1 ef g0 g1 : ε)
    (hf0 : f 0 = .error e0) (hf1 : f 1 = .error e1) (hf2 : f 2 = .ok a)
    (hg0 : g 0 = .error g0) (hg1 : g 1 = .error g1) (hg2 : g 2 = .error ef)
    (hh0 : h 0 = .ok b) :
    retryRun f 3 = (some (.ok a), 3) ∧
    retryRun g 3 = (some (.error ef), 3) ∧
    retryRun h 3 = (some (.ok b), 1) := by
  refine ⟨?_, ?_, ?_⟩ <;>
    simp [retryRun, retryGo, hf0, hf1, hf2, hg0, hg1, hg2, hh0]

/-- Witness for C5: a call failing on attempts 0 and 1 and succeeding on
attempt 2, a call always failing, and a call succeeding immediately. -/
theorem C5_witness :
    retryRun (fun i => if i = 2 then Except.ok 7 else Except.error i) 3
      = (some (.ok 7), 3) ∧
    retryRun (fun i => (Except.error i : Except ℕ ℕ)) 3 = (some (.error 2), 3) ∧
    retryRun (fun _ => (Except.ok 5 : Except ℕ ℕ)) 3 = (some (.ok 5), 1) :=
  C5_retry_semantics (fun i => if i = 2 then Except.ok 7 else Except.error i)
    (fun i => Except.error i) (fun _ => Except.ok 5) 7 5 0 1 2 0 1
    rfl rfl rfl rfl rfl rfl rfl

/-! ### Case lemmas for `analyzeStep` -/

/-- A cache hit returns the cached value and leaves the state untouched. -/
theorem analyzeStep_hit (s : EngineState) (t : String) (v : TextStatistics)
    (h : cacheLookup s.cache t = some v) : analyzeStep s t = (.ok v, s) := by
  unfold analyzeStep
  rw [h]

/-- A cache miss on blank text raises, leaving the state untouched. -/
theorem analyzeStep_blank (s : EngineState) (t : String)
    (h : cacheLookup s.cache t = none) (hb : pyIsBlank t = true) :
    analyzeStep s t = (.error (), s) := by
  unfold analyzeStep
  rw [h]
  simp [hb]

/-- A cache miss on non-blank text runs the analysis: it returns the
computed statistics, appends the truncated history entry, increments the
counter, fires both observer events, and inserts into the cache (evicting
the oldest entry when at capacity). -/
theorem analyzeStep_miss (s : EngineState) (t : String)
    (h : cacheLookup s.cache t = none) (hne : pyIsBlank t = false) :
    analyzeStep s t = (.ok (computeStats t),
      { cache := (if maxCacheSize ≤ s.cache.length then s.cache.drop 1
          else s.cache) ++ [(t, computeStats t)]
        history := s.history ++ [truncEntry t]
        count := s.count + 1
        events := s.events ++ ["analysis_started", "analysis_completed"] }) := by
  unfold analyzeStep
  rw [h]
  simp [hne]

/-- Claim C3: calling `analyze` a second time with an identical non-empty
text returns the identical cached `TextStatistics` and leaves the engine
state unchanged — the counter is not incremented again, the history gains
no new entry, no observer notification fires, and the cache is untouched. -/
theorem C3_cache_hit_idempotent (s : EngineState) (t : String)
    (hne : pyIsBlank t = false) :
    analyzeStep (analyzeStep s t).2 t = analyzeStep s t := by
  cases h : cacheLookup s.cache t with
  | some v =>
    rw [analyzeStep_hit s t v h]
    exact analyzeStep_hit s t v h
  | none =>
    have hfind : s.cache.find? (fun p => p.1 == t) = none := by
      unfold cacheLookup at h
      exact Option.map_eq_none'.mp h
    rw [analyzeStep_miss s t h hne]
    apply analyzeStep_hit
    have hdropnone :
        (if maxCacheSize ≤ s.cache.length then s.cache.drop 1
          else s.cache).find? (fun p => p.1 == t) = none := by
      rw [List.find?_eq_none] at hfind ⊢
      intro x hx
      apply hfind
      split at hx
      · exact List.mem_of_mem_drop hx
      · exact hx
    unfold cacheLookup
    rw [List.find?_append, hdropnone]
    simp

/-- Witness for C3: re-analyzing `"hola mundo"` right after its first
analysis returns the same result and state. -/
theorem C3_witness :
    analyzeStep (analyzeStep initState "hola mundo").2 "hola mundo"
      = analyzeStep initState "hola mundo" :=
  C3_cache_hit_idempotent initState "hola mundo" (by decide)

/-- One `analyze` call preserves `analysisCount = |analyzedTexts|`:
a miss increments both together, a hit or a failure changes neither. -/
theorem analyzeStep_count_eq_history (s : EngineState) (t : String)
    (h : s.count = s.history.length) :
    ((analyzeStep s t).2).count = ((analyzeStep s t).2).history.length := by
  cases hc : cacheLookup s.cache t with
  | some v => rw [analyzeStep_hit s t v hc]; exact h
  | none =>
    cases hb : pyIsBlank t with
    | true => rw [analyzeStep_blank s t hc hb]; exact h
    | false => rw [analyzeStep_miss s t hc hb]; simp [h]

/-- Claim C9: after any sequence of engine operations (analyze on a miss
or a hit, batch analysis, `clear_cache`, `reset_statistics`), the
`analysis_count` counter equals the number of history entries in
`_texts_analyzed`. -/
theorem C9_count_history_invariant (ops : List EngineOp) :
    (runOps ops).count = (runOps ops).history.length := by
  have hstep : ∀ (s : EngineState) (op : EngineOp),
      s.count = s.history.length → (applyOp s op).count = (applyOp s op).history.length := by
    intro s op h
    cases op with
    | analyze t => exact analyzeStep_count_eq_history s t h
    | clearCache => exact h
    | resetStats => rfl
    | batch ts =>
      exact foldl_invariant (fun s' => s'.count = s'.history.length)
        (fun s' t => (analyzeStep s' t).2)
        (fun s' t => analyzeStep_count_eq_history s' t) ts s h
  exact foldl_invariant (fun s' => s'.count = s'.history.length) applyOp hstep ops
    initState rfl

/-- Blank texts are rejected before any side effect, so no reachable
cache ever holds a blank key. -/
theorem runOps_cache_not_blank (ops : List EngineOp) :
    ∀ p ∈ (runOps ops).cache, pyIsBlank p.1 = false := by
  have hana : ∀ (s : EngineState) (t : String),
      (∀ p ∈ s.cache, pyIsBlank p.1 = false) →
      ∀ p ∈ ((analyzeStep s t).2).cache, pyIsBlank p.1 = false := by
    intro s t h p hp
    cases hc : cacheLookup s.cache t with
    | some v => rw [analyzeStep_hit s t v hc] at hp; exact h p hp
    | none =>
      cases hb : pyIsBlank t with
      | true => rw [analyzeStep_blank s t hc hb] at hp; exact h p hp
      | false =>
        rw [analyzeStep_miss s t hc hb] at hp
        simp only [List.mem_append, List.mem_singleton] at hp
        rcases hp with hp | hp
        · split at hp
          · exact h p (List.mem_of_mem_drop hp)
          · exact h p hp
        · subst hp; exact hb
  have hstep : ∀ (s : EngineState) (op : EngineOp),
      (∀ p ∈ s.cache, pyIsBlank p.1 = false) →
      ∀ p ∈ (applyOp s op).cache, pyIsBlank p.1 = false := by
    intro s op h
    cases op with
    | analyze t => exact hana s t h
    | clearCache => intro p hp; cases hp
    | resetStats => intro p hp; cases hp
    | batch ts =>
      exact foldl_invariant (fun s' => ∀ p ∈ s'.cache, pyIsBlank p.1 = false)
        (fun s' t => (analyzeStep s' t).2) hana ts s h
  exact foldl_invariant (fun s' => ∀ p ∈ s'.cache, pyIsBlank p.1 = false)
    applyOp hstep ops initState (by intro p hp; cases hp)

/-- On a state whose cache holds no blank key, looking up a blank text
always misses. -/
theorem cacheLookup_none_of_blank (s : EngineState)
    (hnb : ∀ p ∈ s.cache, pyIsBlank p.1 = false) (t : String)
    (hb : pyIsBlank t = true) : cacheLookup s.cache t = none := by
  unfold cacheLookup
  cases hf : s.cache.find? (fun p => p.1 == t) with
  | none => rfl
  | some p =>
    have hp := List.find?_some hf
    have hmem : p ∈ s.cache := List.mem_of_find?_eq_some hf
    have hpt : p.1 = t := by simpa using hp
    rw [← hpt, hnb p hmem] at hb
    cases hb

/-- Claim C7: on any reachable engine state, `analyze(text)` fails (with
the empty-input `ValueError`) exactly when the text is empty or
all-whitespace, and such a failed call leaves the engine state unchanged:
no observer event fires, the counter is not incremented, and no history
or cache entry is added. -/
theorem C7_empty_input_error (ops : List EngineOp) (t : String) :
    ((analyzeStep (runOps ops) t).1 = .error () ↔ pyIsBlank t = true) ∧
    (pyIsBlank t = true →
      analyzeStep (runOps ops) t = (.error (), runOps ops)) := by
  have hnb := runOps_cache_not_blank ops
  have herrcase : pyIsBlank t = true →
      analyzeStep (runOps ops) t = (.error (), runOps ops) := fun hb =>
    analyzeStep_blank (runOps ops) t (cacheLookup_none_of_blank (runOps ops) hnb t hb) hb
  refine ⟨⟨fun herr => ?_, fun hb => by rw [herrcase hb]⟩, herrcase⟩
  by_contra hb
  have hbf : pyIsBlank t = false := by simpa using hb
  cases hc : cacheLookup (runOps ops).cache t with
  | some v => rw [analyzeStep_hit (runOps ops) t v hc] at herr; cases herr
  | none => rw [analyzeStep_miss (runOps ops) t hc hbf] at herr; cases herr

/-- Witness for C7: on the fresh analyzer, an all-whitespace text is
rejected with the state unchanged, and `"hola"` is not rejected. -/
theorem C7_witness :
    analyzeStep (runOps []) "  " = (.error (), runOps []) ∧
    (analyzeStep (runOps []) "hola").1 ≠ .error () :=
  ⟨(C7_empty_input_error [] "  ").2 (by decide),
   fun herr => by
    have hb := (C7_empty_input_error [] "hola").1.mp herr
    simp [pyIsBlank, isPySpace] at hb⟩

/-- A 51-character input text. -/
def longText51 : String := ⟨List.replicate 51 'a'⟩

/-- A 60-character input text. -/
def longText60 : String := ⟨List.replicate 60 'b'⟩

/-- Claim C2 is false as stated: a cache-miss `analyze` on a 51-character
text appends a history entry of 53 characters (the 50-character prefix
plus `'...'`), which is neither at most 50 characters long nor the prefix
truncated to 50 characters. -/
theorem C2_counterexample :
    (analyzeStep initState longText51).2.history = [truncEntry longText51] ∧
    (truncEntry longText51).length = 53 ∧
    ¬ ((truncEntry longText51).length ≤ 50) ∧
    truncEntry longText51 ≠ ⟨longText51.data.take 50⟩ := by
  refine ⟨?_, by decide, by decide, by decide⟩
  rw [analyzeStep_miss initState longText51 rfl (by decide)]
  simp [initState]

/-- Claim C2 as amended: every entry appended to the history by a
cache-miss `analyze` is at most 53 characters long; a text of at most 50
characters is stored verbatim, while a longer text is stored as its
50-character prefix followed by the three-character marker `'...'`
(53 characters in all, agreeing with the text on the first 50). -/
theorem C2_amended_history_truncation (s : EngineState) (t : String)
    (hmiss : cacheLookup s.cache t = none) (hne : pyIsBlank t = false) :
    (analyzeStep s t).2.history = s.history ++ [truncEntry t] ∧
    (truncEntry t).length ≤ 53 ∧
    (50 < t.length →
      (truncEntry t).length = 53 ∧ (truncEntry t).data.take 50 = t.data.take 50) ∧
    (t.length ≤ 50 → truncEntry t = t) := by
  have htk : ∀ l : List Char, 50 < l.length → (l.take 50).length = 50 := by
    intro l hl
    rw [List.length_take]
    exact Nat.min_eq_left (le_of_lt hl)
  have hlen : ∀ l : List Char, 50 < l.length →
      ((l.take 50 ++ ['.', '.', '.']).length = 53) := by
    intro l hl
    rw [List.length_append, htk l hl]
    rfl
  refine ⟨?_, ?_, ?_, ?_⟩
  · rw [analyzeStep_miss s t hmiss hne]
  · unfold truncEntry
    split
    · rename_i h50
      show (t.data.take 50 ++ ['.', '.', '.']).length ≤ 53
      rw [hlen t.data h50]
    · rename_i h50
      exact le_trans (le_of_not_lt h50) (by norm_num)
  · intro h50
    constructor
    · unfold truncEntry
      rw [if_pos h50]
      exact hlen t.data h50
    · unfold truncEntry
      rw [if_pos h50]
      show (t.data.take 50 ++ ['.', '.', '.']).take 50 = t.data.take 50
      rw [List.take_append_of_le_length (le_of_eq (htk t.data h50).symm)]
      simp [List.take_take]
  · intro h50
    unfold truncEntry
    rw [if_neg (not_lt_of_le h50)]

/-- Witness for C2 (amended): a fresh-state analysis of a 60-character
text. -/
theorem C2_witness :
    (analyzeStep initState longText60).2.history
      = initState.history ++ [truncEntry longText60] ∧
    (truncEntry longText60).length ≤ 53 ∧
    (50 < longText60.length →
      (truncEntry longText60).length = 53 ∧
      (truncEntry longText60).data.take 50 = longText60.data.take 50) ∧
    (longText60.length ≤ 50 → truncEntry longText60 = longText60) :=
  C2_amended_history_truncation initState longText60 rfl (by decide)

/-- Claim C1 is false as stated: the text `"Hola hola"` is accepted by
`analyze` (it is not blank) and its returned record has `totalWords = 2`
and `uniqueWords = 1` (tokens lowercased by `word_generator`), yet
`lexicalDiversity = 1`, not `1/2`: `StatisticalAnalysis` computes the
ratio over the raw case-sensitive tokens `["Hola", "hola"]`. -/
theorem C1_counterexample :
    pyIsBlank "Hola hola" = false ∧
    (computeStats "Hola hola").total_words = 2 ∧
    (computeStats "Hola hola").unique_words = 1 ∧
    (computeStats "Hola hola").lexical_diversity = 1 ∧
    (computeStats "Hola hola").lexical_diversity
      ≠ ((computeStats "Hola hola").unique_words : ℚ)
        / ((computeStats "Hola hola").total_words : ℚ) := by
  have h2 : (computeStats "Hola hola").total_words = 2 := by decide
  have h3 : (computeStats "Hola hola").unique_words = 1 := by decide
  have hcard : (findallWords "Hola hola").toFinset.card = 2 := by decide
  have hlen : (findallWords "Hola hola").length = 2 := by decide
  have hne : findallWords "Hola hola" ≠ [] := by decide
  have hld : (computeStats "Hola hola").lexical_diversity = 1 := by
    show statLexicalDiversity "Hola hola" = 1
    simp only [statLexicalDiversity]
    rw [if_neg hne, hcard, hlen]
    norm_num
  refine ⟨by decide, h2, h3, hld, ?_⟩
  rw [hld, h2, h3]
  norm_num

/-- Claim C1 as amended: the returned `lexicalDiversity` is the ratio of
distinct to total tokens of the raw case-sensitive unfiltered
tokenization (`re.findall(r'\b\w+\b', text)`), `0` when that tokenization
is empty; it always lies in `[0, 1]`, but need not equal
`uniqueWords / totalWords` of the same record, whose fields are computed
from the lowercased digit-filtered tokens. -/
theorem C1_amended_lexical_diversity (t : String) :
    (computeStats t).lexical_diversity =
      (if findallWords t = [] then 0
       else ((findallWords t).toFinset.card : ℚ) / ((findallWords t).length : ℚ)) ∧
    0 ≤ (computeStats t).lexical_diversity ∧
    (computeStats t).lexical_diversity ≤ 1 := by
  have heq : (computeStats t).lexical_diversity = statLexicalDiversity t := rfl
  refine ⟨heq, ?_, ?_⟩
  · rw [heq]
    simp only [statLexicalDiversity]
    split
    · exact le_refl 0
    · exact div_nonneg (Nat.cast_nonneg _) (Nat.cast_nonneg _)
  · rw [heq]
    simp only [statLexicalDiversity]
    split
    · exact zero_le_one
    · exact div_le_one_of_le₀
        (Nat.cast_le.mpr (findallWords t).toFinset_card_le)
        (Nat.cast_nonneg _)

/-- Cardinality of a set-vocabulary intersection as a filter count: for a
duplicate-free vocabulary `B`, `|set(A) ∩ set(B)|` is the number of
vocabulary words occurring among the tokens `A`. -/
theorem inter_card_eq_filter_length (A B : List String) (hB : B.Nodup) :
    (A.toFinset ∩ B.toFinset).card
      = (B.filter (fun w => decide (w ∈ A))).length := by
  rw [Finset.inter_comm, ← Finset.filter_mem_eq_inter,
    ← List.toFinset_card_of_nodup (hB.filter _)]
  congr 1
  rw [List.toFinset_filter]
  apply Finset.filter_congr
  intro x hx
  simp [List.mem_toFinset]

/-- A text whose lowercased tokenization has 7 unique tokens, exactly one
of them (`"bueno"`) in the positive vocabulary. -/
def sevenTokensText : String := "bueno uno dos tres cuatro cinco seis"

/-- Claim C6 is false as stated: on `sevenTokensText` the counts are
`positive = 1`, `negative = 0`, `enthusiasm = 0` over 7 unique tokens, so
the claimed formula gives `150/7`, but the returned score is the rounded
`21.43 = 2143/100` (the code applies `round(score, 2)`). -/
theorem C6_counterexample :
    (sentimentAnalyze sevenTokensText).positive_words = 1 ∧
    (sentimentAnalyze sevenTokensText).negative_words = 0 ∧
    (sentimentAnalyze sevenTokensText).enthusiasm_level = 0 ∧
    (wordsLower sevenTokensText).toFinset.card = 7 ∧
    (sentimentAnalyze sevenTokensText).sentiment_score = 2143/100 ∧
    (sentimentAnalyze sevenTokensText).sentiment_score
      ≠ (((1 : ℚ) * (3/2) + (0 : ℚ) * 2) - (0 : ℚ) * (3/2))
          / ((max 7 1 : ℕ) : ℚ) * 100 := by
  have hv : (wordsLower sevenTokensText).toFinset ≠ ∅ := by decide
  have hpos : ((wordsLower sevenTokensText).toFinset ∩ POSITIVE_WORDS.toFinset).card = 1 := by
    decide
  have hneg : ((wordsLower sevenTokensText).toFinset ∩ NEGATIVE_WORDS.toFinset).card = 0 := by
    decide
  have henth : ((wordsLower sevenTokensText).toFinset ∩ ENTHUSIASM_WORDS.toFinset).card = 0 := by
    decide
  have hcard : (wordsLower sevenTokensText).toFinset.card = 7 := by decide
  have hscore : (sentimentAnalyze sevenTokensText).sentiment_score = 2143/100 := by
    simp only [sentimentAnalyze]
    rw [if_neg hv]
    show pyRound2 _ = 2143/100
    rw [hpos, hneg, henth, hcard]
    norm_num [pyRound2, roundHalfEven, Rat.floor_def']
  refine ⟨?_, ?_, ?_, hcard, hscore, ?_⟩
  · simp only [sentimentAnalyze]; rw [if_neg hv]; exact hpos
  · simp only [sentimentAnalyze]; rw [if_neg hv]; exact hneg
  · simp only [sentimentAnalyze]; rw [if_neg hv]; exact henth
  · rw [hscore]; norm_num

/-- Claim C6 as amended: the counts are the sizes of the intersections of
the unique lowercased token set with the fixed vocabularies (equivalently
the number of vocabulary entries among the tokens), the returned score is
the claimed formula **rounded to two decimal places half-to-even**
(`round(score, 2)`), and the emotion tag follows the claimed priority;
empty input yields score 0 and emotion neutral (covered by the same
equations: all counts are then 0), and `"bueno bueno malo"` yields score
0 and emotion neutral. -/
theorem C6_amended_sentiment (t : String) :
    (sentimentAnalyze t).positive_words
      = (POSITIVE_WORDS.filter (fun w => decide (w ∈ wordsLower t))).length ∧
    (sentimentAnalyze t).negative_words
      = (NEGATIVE_WORDS.filter (fun w => decide (w ∈ wordsLower t))).length ∧
    (sentimentAnalyze t).enthusiasm_level
      = (ENTHUSIASM_WORDS.filter (fun w => decide (w ∈ wordsLower t))).length ∧
    (sentimentAnalyze t).sentiment_score
      = pyRound2 ((((sentimentAnalyze t).positive_words : ℚ) * (3/2)
            + ((sentimentAnalyze t).enthusiasm_level : ℚ) * 2
            - ((sentimentAnalyze t).negative_words : ℚ) * (3/2))
          / ((max (wordsLower t).toFinset.card 1 : ℕ) : ℚ) * 100) ∧
    (sentimentAnalyze t).emotion
      = (if 1 < (sentimentAnalyze t).enthusiasm_level then "entusiasta"
         else if (sentimentAnalyze t).negative_words
             < (sentimentAnalyze t).positive_words then "positivo"
         else if (sentimentAnalyze t).positive_words
             < (sentimentAnalyze t).negative_words then "negativo"
         else "neutral") ∧
    (sentimentAnalyze "bueno bueno malo").sentiment_score = 0 ∧
    (sentimentAnalyze "bueno bueno malo").emotion = "neutral" := by
  have hconcrete : (sentimentAnalyze "bueno bueno malo").sentiment_score = 0 ∧
      (sentimentAnalyze "bueno bueno malo").emotion = "neutral" := by
    have hv : (wordsLower "bueno bueno malo").toFinset ≠ ∅ := by decide
    have hpos : ((wordsLower "bueno bueno malo").toFinset ∩ POSITIVE_WORDS.toFinset).card
        = 1 := by decide
    have hneg : ((wordsLower "bueno bueno malo").toFinset ∩ NEGATIVE_WORDS.toFinset).card
        = 1 := by decide
    have henth : ((wordsLower "bueno bueno malo").toFinset ∩ ENTHUSIASM_WORDS.toFinset).card
        = 0 := by decide
    have hcard : (wordsLower "bueno bueno malo").toFinset.card = 2 := by decide
    constructor
    · simp only [sentimentAnalyze]
      rw [if_neg hv]
      show pyRound2 _ = 0
      rw [hpos, hneg, henth, hcard]
      norm_num [pyRound2, roundHalfEven, Rat.floor_def']
    · simp only [sentimentAnalyze]
      rw [if_neg hv]
      dsimp only
      rw [hpos, hneg, henth]
      norm_num
  by_cases hv : (wordsLower t).toFinset = ∅
  · have hl : wordsLower t = [] := List.toFinset_eq_empty_iff _ |>.mp hv
    have hs : sentimentAnalyze t =
        { sentiment_score := 0, positive_words := 0, negative_words := 0,
          enthusiasm_level := 0, neutrality := 0, emotion := "neutral" } := by
      simp only [sentimentAnalyze]
      rw [if_pos hv]
    rw [hs, hl]
    refine ⟨by simp, by simp, by simp, ?_, by simp, hconcrete.1, hconcrete.2⟩
    show (0 : ℚ) = pyRound2 _
    rw [show (([] : List String).toFinset.card ⊔ 1) = 1 from by decide]
    norm_num [pyRound2, roundHalfEven, Rat.floor_def']
  · refine ⟨?_, ?_, ?_, ?_, ?_, hconcrete.1, hconcrete.2⟩
    · simp only [sentimentAnalyze]
      rw [if_neg hv]
      exact inter_card_eq_filter_length _ _ (by decide)
    · simp only [sentimentAnalyze]
      rw [if_neg hv]
      exact inter_card_eq_filter_length _ _ (by decide)
    · simp only [sentimentAnalyze]
      rw [if_neg hv]
      exact inter_card_eq_filter_length _ _ (by decide)
    · simp only [sentimentAnalyze]
      rw [if_neg hv]
    · simp only [sentimentAnalyze]
      rw [if_neg hv]

/-- The transition count of `_count_syllables` equals the number of
maximal vowel runs: from the outside of a run it counts every run still
ahead; from inside a run it counts one less than the runs of the
remaining input (the current run is already counted). -/
theorem sylGo_runs (l : List Char) :
    sylGo false l = (runsOfGo isVowelChar [] l).length ∧
    (∀ cur : List Char, cur ≠ [] →
      sylGo true l + 1 = (runsOfGo isVowelChar cur l).length) := by
  induction l with
  | nil =>
    refine ⟨by simp [sylGo, runsOfGo], ?_⟩
    intro cur h
    simp [sylGo, runsOfGo, h]
  | cons c cs ih =>
    by_cases hp : isVowelChar c
    · refine ⟨?_, ?_⟩
      · have h1 := ih.2 [c] (by simp)
        simp [sylGo, runsOfGo, hp]
        omega
      · intro cur h
        have h1 := ih.2 (c :: cur) (by simp)
        simp [sylGo, runsOfGo, hp]
        omega
    · have hpb : isVowelChar c = false := by simpa using hp
      refine ⟨?_, ?_⟩
      · have h1 := ih.1
        simp [sylGo, runsOfGo, hpb]
        omega
      · intro cur h
        have h1 := ih.1
        simp [sylGo, runsOfGo, hpb, h]
        omega

/-- `_count_syllables` computes one syllable per maximal vowel run, with
a minimum of one per word. -/
theorem countSyllables_eq_runs (w : String) :
    countSyllables w = max 1 (runsOf isVowelChar (w.data.map pyLower)).length := by
  unfold countSyllables runsOf
  rw [(sylGo_runs (w.data.map pyLower)).1]

/-- Claim C8: each word's syllable count is the number of maximal
consecutive-vowel runs of the lowercased word with a minimum of 1; for a
text with at least one word and at least one non-blank sentence the
readability score is `206.835 - 1.015*avgWordsPerSentence -
84.6*avgSyllablesPerWord` clamped to [0, 100]; with zero words or zero
non-blank sentences the score is 0 and the level Simple; the complexity
level follows the fixed thresholds on the (clamped) score: ≥ 80 Simple,
≥ 60 Medium, ≥ 40 Complex, else Advanced. -/
theorem C8_readability (t : String) :
    (∀ w : String, countSyllables w
        = max 1 (runsOf isVowelChar (w.data.map pyLower)).length) ∧
    readabilityAnalyze t =
      (if nonBlankSentences t = [] ∨ findallWords t = [] then
        { readability_score := 0, complexity_level := .SIMPLE }
      else
        let score : ℚ := max 0 (min 100 (206835/1000
          - (203/200) * (((findallWords t).length : ℚ) / ((nonBlankSentences t).length : ℚ))
          - (423/5) * (((((findallWords t).map (fun w =>
                max 1 (runsOf isVowelChar (w.data.map pyLower)).length)).sum : ℕ) : ℚ)
              / ((findallWords t).length : ℚ))))
        { readability_score := score,
          complexity_level :=
            if 80 ≤ score then .SIMPLE
            else if 60 ≤ score then .MEDIUM
            else if 40 ≤ score then .COMPLEX
            else .ADVANCED }) := by
  refine ⟨countSyllables_eq_runs, ?_⟩
  rw [show (fun w => max 1 (runsOf isVowelChar (w.data.map pyLower)).length)
      = countSyllables from funext (fun w => (countSyllables_eq_runs w).symm)]
  rfl

/-- A non-blank text is always analyzed successfully. -/
theorem analyzeStep_ok_pair (s : EngineState) (t : String)
    (hne : pyIsBlank t = false) :
    ∃ v, analyzeStep s t = (.ok v, (analyzeStep s t).2) := by
  cases hc : cacheLookup s.cache t with
  | some v => exact ⟨v, by rw [analyzeStep_hit s t v hc]⟩
  | none => exact ⟨computeStats t, by rw [analyzeStep_miss s t hc hne]⟩

/-- Claim C10: for non-blank texts, `compare_texts` always succeeds and
reports `_calculate_similarity`; whenever either text tokenizes to no
words the similarity is exactly 0; the similarity is always a defined
value in [0, 1]; and when both token sets are non-empty the Jaccard union
is non-empty, so the division is never evaluated on an empty union. -/
theorem C10_similarity_safety (s : EngineState) (t1 t2 : String)
    (h1 : pyIsBlank t1 = false) (h2 : pyIsBlank t2 = false) :
    (∃ r, (compareTexts s t1 t2).1 = .ok r ∧
      r.similarity_score = calculateSimilarity t1 t2) ∧
    ((wordGenerator t1).toFinset = ∅ ∨ (wordGenerator t2).toFinset = ∅ →
      calculateSimilarity t1 t2 = 0) ∧
    0 ≤ calculateSimilarity t1 t2 ∧
    calculateSimilarity t1 t2 ≤ 1 ∧
    ((wordGenerator t1).toFinset ≠ ∅ →
      0 < ((wordGenerator t1).toFinset ∪ (wordGenerator t2).toFinset).card) := by
  refine ⟨?_, ?_, ?_, ?_, ?_⟩
  · obtain ⟨v1, he1⟩ := analyzeStep_ok_pair s t1 h1
    obtain ⟨v2, he2⟩ := analyzeStep_ok_pair (analyzeStep s t1).2 t2 h2
    unfold compareTexts
    split
    · rename_i e s1 heq
      rw [he1] at heq
      cases heq
    · rename_i st1 s1 heq
      split
      · rename_i e s2 heq2
        rw [he1] at heq
        cases heq
        rw [he2] at heq2
        cases heq2
      · rename_i st2 s2 heq2
        exact ⟨_, rfl, rfl⟩
  · intro h
    simp only [calculateSimilarity]
    rw [if_pos h]
  · simp only [calculateSimilarity]
    split
    · exact le_refl 0
    · split
      · exact div_nonneg (Nat.cast_nonneg _) (Nat.cast_nonneg _)
      · exact le_refl 0
  · simp only [calculateSimilarity]
    split
    · exact zero_le_one
    · split
      · exact div_le_one_of_le₀
          (Nat.cast_le.mpr (Finset.card_le_card Finset.inter_subset_union))
          (Nat.cast_nonneg _)
      · exact zero_le_one
  · intro h
    obtain ⟨x, hx⟩ := Finset.nonempty_iff_ne_empty.mpr h
    exact Finset.card_pos.mpr ⟨x, Finset.mem_union_left _ hx⟩

/-- Witness for C10: `"..."` is accepted by `analyze` but produces no
tokens, so comparing it with `"hola"` reports similarity exactly 0. -/
theorem C10_witness :
    (∃ r, (compareTexts initState "..." "hola").1 = .ok r ∧
      r.similarity_score = calculateSimilarity "..." "hola") ∧
    calculateSimilarity "..." "hola" = 0 ∧
    0 ≤ calculateSimilarity "..." "hola" := by
  have h := C10_similarity_safety initState "..." "hola" (by decide) (by decide)
  exact ⟨h.1, h.2.1 (Or.inl (by decide)), h.2.2.1⟩

end CodeVault
